import Mathlib

/-!
Shallow embedding of `src/utils/calculateResult.js` from the
Hayleeiahs-Crafting repository: ingredient totals aggregation,
dominant-attribute tie-breaking, and deterministic recipe selection.

JS values are modelled as follows: numbers as `Int`, strings as `String`,
possibly-missing (`undefined`/`null`) fields as `Option`, arrays as `List`,
and JS bracket indexing (which yields `undefined` out of range) as an
`Option`-valued lookup.  The call to `Math.random()` in `selectRecipe` is
modelled by an explicit oracle argument `randRoll : Nat`; the expression
`Math.floor(Math.random() * 15)` becomes `randRoll % 15`, which ranges over
exactly the values `0..14` the source expression can produce.
-/

namespace Crafting

/-- Lower-casing of one character: ASCII `A`..`Z` is mapped to `a`..`z`,
all other characters are unchanged (the strings this program compares are
plain ASCII attribute tags, where this agrees with JS `toLowerCase`). -/
def charToLower (c : Char) : Char :=
  if 65 ≤ c.toNat ∧ c.toNat ≤ 90 then Char.ofNat (c.toNat + 32) else c

/-- JS toLowerCase, character-wise (`String.prototype.toLowerCase`). -/
def jsToLower (s : String) : String := ⟨s.data.map charToLower⟩

/-- JS array indexing `l[i]` with an `Int` index: out-of-range or negative
indices yield `undefined`, modelled as `none`. -/
def jsIndex {α : Type} (l : List α) (i : Int) : Option α :=
  if i < 0 then none else l[i.toNat]?

/-- An ingredient row.  The three attribute fields may be missing or null
(`ingredient?.potency ?? 0` in the source), hence `Option Int`. -/
structure Ingredient where
  name : String := ""
  potency : Option Int := none
  resonance : Option Int := none
  entropy : Option Int := none
deriving Repr, DecidableEq

/-- The totals record produced by `calculateTotals`: exactly the three keys
`potency`, `resonance`, `entropy`, in that insertion order. -/
structure AttributeTotals where
  potency : Int
  resonance : Int
  entropy : Int
deriving Repr, DecidableEq

/-- A catalog recipe.  `qualityCategory` may be missing
(`item?.qualityCategory?.toLowerCase()` in the source). -/
structure Recipe where
  name : String := ""
  qualityCategory : Option String := none
deriving Repr, DecidableEq

/-- Source constant `PRIORITY_MATRIX`; lookup of an unknown key
yields `undefined`, modelled as `none`. -/
def PRIORITY_MATRIX (discipline : String) : Option (List String) :=
  if discipline = "Herbalism" then some ["resonance", "entropy", "potency"]
  else if discipline = "Alchemy" then some ["potency", "resonance", "entropy"]
  else if discipline = "Poison" then some ["entropy", "potency", "resonance"]
  else none

/-- Source constant `ATTRIBUTE_ORDER`. -/
def ATTRIBUTE_ORDER : List String := ["potency", "resonance", "entropy"]

/-- The reducer body of `calculateTotals`: add each attribute of one
ingredient to the accumulator, with missing/null treated as 0.  A `none`
ingredient models a null/undefined list entry (`ingredient?.potency ?? 0`). -/
def totalsStep (acc : AttributeTotals) (ingredient : Option Ingredient) : AttributeTotals :=
  { potency := acc.potency + ((ingredient.bind Ingredient.potency).getD 0)
    resonance := acc.resonance + ((ingredient.bind Ingredient.resonance).getD 0)
    entropy := acc.entropy + ((ingredient.bind Ingredient.entropy).getD 0) }

/-- Source function `calculateTotals`: reduce over the ingredient list starting from the
all-zero record. -/
def calculateTotals (ingredients : List (Option Ingredient)) : AttributeTotals :=
  ingredients.foldl totalsStep { potency := 0, resonance := 0, entropy := 0 }

/-- Model of `Object.entries(totals)` for a totals record built by `calculateTotals`:
the three key/value pairs in insertion order. -/
def totalsEntries (t : AttributeTotals) : List (String × Int) :=
  [("potency", t.potency), ("resonance", t.resonance), ("entropy", t.entropy)]

/-- Stable insertion step for sorting entries by value, descending: models
one placement of JS `entries.sort((a, b) => b[1] - a[1])` (JS `sort` is
stable, and `≥` on the value keeps earlier entries first among ties). -/
def insertDescByValue (x : String × Int) : List (String × Int) → List (String × Int)
  | [] => [x]
  | y :: ys => if x.2 ≥ y.2 then x :: y :: ys else y :: insertDescByValue x ys

/-- Stable descending-by-value sort, modelling
`entries.sort((a, b) => b[1] - a[1])`. -/
def sortDescByValue : List (String × Int) → List (String × Int)
  | [] => []
  | x :: xs => insertDescByValue x (sortDescByValue xs)

/-- Source function `resolveDominantAttribute`: maximum over the entry values, the tied key
set, the unique-max shortcut via the descending sort, and the priority-based
tie-break.  `Math.max(...)` over the three entry values is written as a
nested binary `max`; `entries` is always a 3-element list, so the `headD`
defaults are never reached. -/
def resolveDominantAttribute (totals : AttributeTotals) (discipline : String) : String :=
  let entries := totalsEntries totals
  let maxValue := max totals.potency (max totals.resonance totals.entropy)
  let tied := (entries.filter (fun e => e.2 == maxValue)).map Prod.fst
  if tied.length ≤ 1 then
    ((sortDescByValue entries).headD ("potency", 0)).1
  else
    let priority := (PRIORITY_MATRIX discipline).getD ATTRIBUTE_ORDER
    match priority.find? (fun attr => tied.contains attr) with
    | some a => a
    | none => tied.headD ""

/-- Modelled from the spec: the discipline's priority ordering, a total
order over the three attribute names, with the canonical ordering
`[potency, resonance, entropy]` as fallback for an unrecognized
discipline (spec §on tie-breaking). -/
def specPriorityOrdering (discipline : String) : List String :=
  if discipline = "Herbalism" then ["resonance", "entropy", "potency"]
  else if discipline = "Alchemy" then ["potency", "resonance", "entropy"]
  else if discipline = "Poison" then ["entropy", "potency", "resonance"]
  else ["potency", "resonance", "entropy"]

/-- Modelled from the spec: "If exactly one attribute achieves the maximum,
return it.  If more than one is tied, return the first attribute, in the
discipline's priority order, that appears in the tied set."  Written
directly from the spec's words, to be compared with
`resolveDominantAttribute` from the source. -/
def resolveDominantSpec (totals : AttributeTotals) (discipline : String) : String :=
  let m := max totals.potency (max totals.resonance totals.entropy)
  let tiedSet : List String :=
    (if totals.potency = m then ["potency"] else []) ++
    (if totals.resonance = m then ["resonance"] else []) ++
    (if totals.entropy = m then ["entropy"] else [])
  if tiedSet.length = 1 then tiedSet.headD ""
  else ((specPriorityOrdering discipline).find? (fun a => tiedSet.contains a)).getD ""

/-- Source function `getTierIndex`: `ATTRIBUTE_ORDER.indexOf(attribute)`, which is `-1`
when the attribute is not one of the three canonical names. -/
def getTierIndex (attrName : String) : Int :=
  if attrName = "potency" then 0
  else if attrName = "resonance" then 1
  else if attrName = "entropy" then 2
  else -1

/-- Model of `totals?.[attribute] ?? 0`: dynamic key lookup on the totals record,
defaulting to 0 for a key that is not one of the three. -/
def totalsLookup (totals : AttributeTotals) (attrName : String) : Int :=
  if attrName = "potency" then totals.potency
  else if attrName = "resonance" then totals.resonance
  else if attrName = "entropy" then totals.entropy
  else 0

/-- Source function `deterministicRoll`: clamp the dominant attribute's total into `[1, 15]`
and subtract 1. -/
def deterministicRoll (attrName : String) (totals : AttributeTotals) : Int :=
  let value := totalsLookup totals attrName
  let clamped := min 15 (max 1 value)
  clamped - 1

/-- The predicate `item?.qualityCategory?.toLowerCase() === key`:
false when `qualityCategory` is missing (comparing `undefined` to a
string). -/
def qcMatches (item : Recipe) (key : String) : Bool :=
  match item.qualityCategory with
  | some qc => jsToLower qc == key
  | none => false

/-- The record returned by `selectRecipe`. -/
structure Selection where
  recipe : Option Recipe
  tierIndex : Int
  roll : Int
  idealIndex : Int
  usedFallback : Bool
deriving Repr, DecidableEq

/-- The roll expression of `selectRecipe`:
`mode === 'random' ? Math.floor(Math.random() * 15) : deterministicRoll(...)`,
with the random draw modelled by the oracle `randRoll` reduced into the
draw's range `0..14`. -/
def rollExpr (randRoll : Nat) (mode : String) (attrName : String)
    (totals : AttributeTotals) : Int :=
  if mode = "random" then ((randRoll % 15 : Nat) : Int)
  else deterministicRoll attrName totals

/-- Source function `selectRecipe`.  `randRoll` is the oracle for `Math.random()`:
`randRoll % 15` stands for `Math.floor(Math.random() * 15)`.
`(attribute || '').toLowerCase()` equals `jsToLower attrName` for every
string `attribute` (the empty string is falsy but lower-cases to itself).
The `|| null` after each successful array pick is the identity on the
already-`Option`-valued `jsIndex`. -/
def selectRecipe (randRoll : Nat) (recipes : List Recipe) (attrName : String)
    (totals : AttributeTotals) (mode : String) : Selection :=
  if recipes.length = 0 then
    { recipe := none, tierIndex := getTierIndex attrName, roll := 0
      idealIndex := 0, usedFallback := false }
  else
    let tierIndex := max 0 (getTierIndex attrName)
    let roll : Int := rollExpr randRoll mode attrName totals
    let idealIndex := tierIndex * 15 + roll
    let qualityKey := jsToLower attrName
    let tierRecipes := recipes.filter (fun item => qcMatches item qualityKey)
    let firstPick : Option Recipe × Bool :=
      if tierRecipes.length ≠ 0 then
        (jsIndex tierRecipes (roll % (tierRecipes.length : Int)),
         decide (tierRecipes.length < 15))
      else
        (jsIndex recipes idealIndex, false)
    let afterFallback : Option Recipe × Bool :=
      match firstPick.1 with
      | some r => (some r, firstPick.2)
      | none =>
        let qualityMatches := recipes.filter (fun item => qcMatches item attrName)
        if qualityMatches.length ≠ 0 then
          (jsIndex qualityMatches (roll % (qualityMatches.length : Int)), true)
        else
          (jsIndex recipes (roll % (recipes.length : Int)), true)
    { recipe := afterFallback.1, tierIndex := tierIndex, roll := roll
      idealIndex := idealIndex, usedFallback := afterFallback.2 }

/-- The `options` argument of `calculateResult`; only `mode` is read. -/
structure Options where
  mode : Option String := none
deriving Repr, DecidableEq

/-- Model of `options.mode || 'deterministic'`: a missing mode, and the falsy empty
string, default to `"deterministic"`. -/
def resolveMode (options : Options) : String :=
  match options.mode with
  | none => "deterministic"
  | some s => if s = "" then "deterministic" else s

/-- The record returned by `calculateResult`. -/
structure CraftingResult where
  recipe : Option Recipe
  tierIndex : Int
  roll : Int
  idealIndex : Int
  usedFallback : Bool
  totals : AttributeTotals
  dominantAttribute : String
  mode : String
deriving Repr, DecidableEq

/-- Source function `calculateResult`: totals, dominant attribute, mode defaulting, recipe
selection, and assembly of the result record. -/
def calculateResult (randRoll : Nat) (ingredients : List (Option Ingredient))
    (discipline : String) (recipes : List Recipe) (options : Options) :
    CraftingResult :=
  let totals := calculateTotals ingredients
  let dominantAttribute := resolveDominantAttribute totals discipline
  let mode := resolveMode options
  let selection := selectRecipe randRoll recipes dominantAttribute totals mode
  { recipe := selection.recipe, tierIndex := selection.tierIndex
    roll := selection.roll, idealIndex := selection.idealIndex
    usedFallback := selection.usedFallback, totals := totals
    dominantAttribute := dominantAttribute, mode := mode }


lemma insertDescByValue_cons_ge (x y : String × Int) (ys : List (String × Int))
    (h : x.2 ≥ y.2) : insertDescByValue x (y :: ys) = x :: y :: ys := by
  simp only [insertDescByValue]
  rw [if_pos h]

lemma insertDescByValue_cons_lt (x y : String × Int) (ys : List (String × Int))
    (h : ¬ x.2 ≥ y.2) : insertDescByValue x (y :: ys) = y :: insertDescByValue x ys := by
  simp only [insertDescByValue]
  rw [if_neg h]

lemma sortHead_potency (p r e : Int) (h1 : r < p) (h2 : e < p) :
    ((sortDescByValue [("potency", p), ("resonance", r), ("entropy", e)]).head?.getD ("potency", 0)).1 = "potency" := by
  show ((insertDescByValue ("potency", p) (insertDescByValue ("resonance", r)
    (insertDescByValue ("entropy", e) []))).head?.getD ("potency", 0)).1 = "potency"
  rcases le_or_lt e r with h | h
  · rw [show insertDescByValue ("entropy", e) [] = [("entropy", e)] from rfl,
      insertDescByValue_cons_ge _ _ _ (show r ≥ e from h),
      insertDescByValue_cons_ge _ _ _ (show p ≥ r from le_of_lt h1)]
    rfl
  · rw [show insertDescByValue ("entropy", e) [] = [("entropy", e)] from rfl,
      insertDescByValue_cons_lt _ _ _ (show ¬ r ≥ e from not_le.mpr h),
      show insertDescByValue ("resonance", r) [] = [("resonance", r)] from rfl,
      insertDescByValue_cons_ge _ _ _ (show p ≥ e from le_of_lt h2)]
    rfl

lemma sortHead_resonance (p r e : Int) (h1 : p < r) (h2 : e < r) :
    ((sortDescByValue [("potency", p), ("resonance", r), ("entropy", e)]).head?.getD ("potency", 0)).1 = "resonance" := by
  show ((insertDescByValue ("potency", p) (insertDescByValue ("resonance", r)
    (insertDescByValue ("entropy", e) []))).head?.getD ("potency", 0)).1 = "resonance"
  rw [show insertDescByValue ("entropy", e) [] = [("entropy", e)] from rfl,
    insertDescByValue_cons_ge _ _ _ (show r ≥ e from le_of_lt h2),
    insertDescByValue_cons_lt _ _ _ (show ¬ p ≥ r from not_le.mpr h1)]
  rfl

lemma sortHead_entropy (p r e : Int) (h1 : p < e) (h2 : r < e) :
    ((sortDescByValue [("potency", p), ("resonance", r), ("entropy", e)]).head?.getD ("potency", 0)).1 = "entropy" := by
  show ((insertDescByValue ("potency", p) (insertDescByValue ("resonance", r)
    (insertDescByValue ("entropy", e) []))).head?.getD ("potency", 0)).1 = "entropy"
  rw [show insertDescByValue ("entropy", e) [] = [("entropy", e)] from rfl,
    insertDescByValue_cons_lt _ _ _ (show ¬ r ≥ e from not_le.mpr h2),
    show insertDescByValue ("resonance", r) [] = [("resonance", r)] from rfl,
    insertDescByValue_cons_lt _ _ _ (show ¬ p ≥ e from not_le.mpr h1)]
  rfl

lemma priority_getD (d : String) :
    (PRIORITY_MATRIX d).getD ATTRIBUTE_ORDER = specPriorityOrdering d := by
  simp only [PRIORITY_MATRIX, ATTRIBUTE_ORDER, specPriorityOrdering]
  split_ifs <;> rfl

lemma specPriority_cases (d : String) :
    specPriorityOrdering d = ["resonance", "entropy", "potency"] ∨
    specPriorityOrdering d = ["potency", "resonance", "entropy"] ∨
    specPriorityOrdering d = ["entropy", "potency", "resonance"] := by
  simp only [specPriorityOrdering]
  split_ifs <;> simp

lemma resolveDominant_eq_spec_aux (p r e : Int) (d : String) :
    resolveDominantAttribute ⟨p, r, e⟩ d = resolveDominantSpec ⟨p, r, e⟩ d := by
  simp only [resolveDominantAttribute, resolveDominantSpec, totalsEntries]
  set m := max p (max r e) with hm
  have hpm : p ≤ m := le_max_left _ _
  have hrm : r ≤ m := le_trans (le_max_left _ _) (le_max_right _ _)
  have hem : e ≤ m := le_trans (le_max_right _ _) (le_max_right _ _)
  have hone : p = m ∨ r = m ∨ e = m := by
    rcases max_choice p (max r e) with h | h
    · exact Or.inl h.symm
    · rcases max_choice r e with h2 | h2 <;> omega
  rw [priority_getD]
  by_cases hp : p = m <;> by_cases hr : r = m <;> by_cases he : e = m
  · rcases specPriority_cases d with h | h | h <;>
      simp [List.filter, hp, hr, he, h, List.find?]
  · have heb : (e == m) = false := beq_eq_false_iff_ne.mpr he
    rcases specPriority_cases d with h | h | h <;>
      simp [List.filter, hp, hr, he, heb, h, List.find?]
  · have hrb : (r == m) = false := beq_eq_false_iff_ne.mpr hr
    rcases specPriority_cases d with h | h | h <;>
      simp [List.filter, hp, hr, hrb, he, h, List.find?]
  · have h1 : r < m := lt_of_le_of_ne hrm hr
    have h2 : e < m := lt_of_le_of_ne hem he
    have hrb : (r == m) = false := beq_eq_false_iff_ne.mpr hr
    have heb : (e == m) = false := beq_eq_false_iff_ne.mpr he
    simp [List.filter, hp, hr, he, hrb, heb, sortHead_potency m r e h1 h2]
  · have hpb : (p == m) = false := beq_eq_false_iff_ne.mpr hp
    rcases specPriority_cases d with h | h | h <;>
      simp [List.filter, hp, hpb, hr, he, h, List.find?]
  · have h1 : p < m := lt_of_le_of_ne hpm hp
    have h2 : e < m := lt_of_le_of_ne hem he
    have hpb : (p == m) = false := beq_eq_false_iff_ne.mpr hp
    have heb : (e == m) = false := beq_eq_false_iff_ne.mpr he
    simp [List.filter, hp, hpb, hr, he, heb, sortHead_resonance p m e h1 h2]
  · have h1 : p < m := lt_of_le_of_ne hpm hp
    have h2 : r < m := lt_of_le_of_ne hrm hr
    have hpb : (p == m) = false := beq_eq_false_iff_ne.mpr hp
    have hrb : (r == m) = false := beq_eq_false_iff_ne.mpr hr
    simp [List.filter, hp, hpb, hr, hrb, he, sortHead_entropy p r m h1 h2]
  · omega

/-- C2: `resolveDominantAttribute` returns the unique maximal attribute when
one exists, and otherwise the first attribute of the discipline's priority
ordering (canonical ordering for an unrecognized discipline) that lies in
the tied set; this is stated as extensional equality with
`resolveDominantSpec`, written from the spec's words, together with the
spec's three-way-tie examples and the all-zero totals of an empty
ingredient list. -/
theorem resolveDominantAttribute_correct :
    (∀ t : AttributeTotals, ∀ d : String,
      resolveDominantAttribute t d = resolveDominantSpec t d) ∧
    resolveDominantAttribute ⟨3, 3, 3⟩ "Herbalism" = "resonance" ∧
    resolveDominantAttribute ⟨3, 3, 3⟩ "Alchemy" = "potency" ∧
    resolveDominantAttribute ⟨3, 3, 3⟩ "Poison" = "entropy" ∧
    resolveDominantAttribute (calculateTotals []) "Herbalism" = "resonance" ∧
    resolveDominantAttribute (calculateTotals []) "Alchemy" = "potency" ∧
    resolveDominantAttribute (calculateTotals []) "Poison" = "entropy" := by
  refine ⟨fun t d => ?_, rfl, rfl, rfl, rfl, rfl, rfl⟩
  obtain ⟨p, r, e⟩ := t
  exact resolveDominant_eq_spec_aux p r e d


/-- Element-wise sum of two totals records (used to state additivity). -/
def addTotals (a b : AttributeTotals) : AttributeTotals :=
  { potency := a.potency + b.potency
    resonance := a.resonance + b.resonance
    entropy := a.entropy + b.entropy }

lemma foldl_totalsStep (l : List (Option Ingredient)) (acc : AttributeTotals) :
    l.foldl totalsStep acc = addTotals acc (calculateTotals l) := by
  induction l generalizing acc with
  | nil =>
    obtain ⟨a1, a2, a3⟩ := acc
    simp [calculateTotals, addTotals]
  | cons x xs ih =>
    simp only [List.foldl_cons, calculateTotals] at *
    rw [ih, ih (totalsStep { potency := 0, resonance := 0, entropy := 0 } x)]
    obtain ⟨a1, a2, a3⟩ := acc
    simp only [addTotals, totalsStep, AttributeTotals.mk.injEq]
    omega

lemma calculateTotals_cons (x : Option Ingredient) (xs : List (Option Ingredient)) :
    calculateTotals (x :: xs) =
      addTotals (totalsStep { potency := 0, resonance := 0, entropy := 0 } x)
        (calculateTotals xs) := by
  simpa [calculateTotals] using
    foldl_totalsStep xs (totalsStep { potency := 0, resonance := 0, entropy := 0 } x)

/-- C8: `calculateTotals` is additive over list concatenation, element-wise
on each of the three keys. -/
theorem calculateTotals_append (a b : List (Option Ingredient)) :
    (calculateTotals (a ++ b)).potency
        = (calculateTotals a).potency + (calculateTotals b).potency ∧
    (calculateTotals (a ++ b)).resonance
        = (calculateTotals a).resonance + (calculateTotals b).resonance ∧
    (calculateTotals (a ++ b)).entropy
        = (calculateTotals a).entropy + (calculateTotals b).entropy := by
  have h : calculateTotals (a ++ b) = addTotals (calculateTotals a) (calculateTotals b) := by
    rw [calculateTotals, List.foldl_append]
    exact foldl_totalsStep b _
  rw [h]
  exact ⟨rfl, rfl, rfl⟩

lemma calculateTotals_sum_form (l : List (Option Ingredient)) :
    (calculateTotals l).potency
        = (l.map (fun i => ((i.bind Ingredient.potency).getD 0))).sum ∧
    (calculateTotals l).resonance
        = (l.map (fun i => ((i.bind Ingredient.resonance).getD 0))).sum ∧
    (calculateTotals l).entropy
        = (l.map (fun i => ((i.bind Ingredient.entropy).getD 0))).sum := by
  induction l with
  | nil => exact ⟨rfl, rfl, rfl⟩
  | cons x xs ih =>
    rw [calculateTotals_cons]
    obtain ⟨h1, h2, h3⟩ := ih
    simp only [addTotals, totalsStep, List.map_cons, List.sum_cons]
    constructor
    · simp [h1]
    constructor
    · simp [h2]
    · simp [h3]

/-- C9: `calculateTotals` sums each of the three attributes across the
list with missing/null values read as 0, its components are nonnegative
whenever every present input value is nonnegative, and an ingredient with
no numeric fields contributes zero to every key; the aggregator is total
(it is a Lean function), so it never fails. -/
theorem calculateTotals_correct :
    (∀ l : List (Option Ingredient),
      (calculateTotals l).potency
          = (l.map (fun i => ((i.bind Ingredient.potency).getD 0))).sum ∧
      (calculateTotals l).resonance
          = (l.map (fun i => ((i.bind Ingredient.resonance).getD 0))).sum ∧
      (calculateTotals l).entropy
          = (l.map (fun i => ((i.bind Ingredient.entropy).getD 0))).sum) ∧
    (∀ l : List (Option Ingredient),
      (∀ o ∈ l, ∀ ing : Ingredient, o = some ing →
        (∀ v ∈ ing.potency, 0 ≤ v) ∧ (∀ v ∈ ing.resonance, 0 ≤ v) ∧
        (∀ v ∈ ing.entropy, 0 ≤ v)) →
      0 ≤ (calculateTotals l).potency ∧ 0 ≤ (calculateTotals l).resonance ∧
      0 ≤ (calculateTotals l).entropy) ∧
    calculateTotals [some { name := "X" }]
      = { potency := 0, resonance := 0, entropy := 0 } := by
  refine ⟨calculateTotals_sum_form, fun l h => ?_, rfl⟩
  obtain ⟨h1, h2, h3⟩ := calculateTotals_sum_form l
  rw [h1, h2, h3]
  refine ⟨List.sum_nonneg ?_, List.sum_nonneg ?_, List.sum_nonneg ?_⟩ <;>
    intro x hx <;> simp only [List.mem_map] at hx <;>
    obtain ⟨o, ho, rfl⟩ := hx
  · rcases o with _ | ing
    · simp
    · rcases hv : ing.potency with _ | v
      · simp [hv]
      · have := ((h _ ho ing rfl).1 v (by simp [hv]))
        simpa [hv] using this
  · rcases o with _ | ing
    · simp
    · rcases hv : ing.resonance with _ | v
      · simp [hv]
      · have := ((h _ ho ing rfl).2.1 v (by simp [hv]))
        simpa [hv] using this
  · rcases o with _ | ing
    · simp
    · rcases hv : ing.entropy with _ | v
      · simp [hv]
      · have := ((h _ ho ing rfl).2.2 v (by simp [hv]))
        simpa [hv] using this

/-- Witness for C9: the nonnegativity part applied to a concrete
one-ingredient list whose present values are nonnegative. -/
theorem calculateTotals_correct_witness :
    (∀ o ∈ [some ({ name := "Y", potency := some 2 } : Ingredient)],
      ∀ ing : Ingredient, o = some ing →
        (∀ v ∈ ing.potency, 0 ≤ v) ∧ (∀ v ∈ ing.resonance, 0 ≤ v) ∧
        (∀ v ∈ ing.entropy, 0 ≤ v)) ∧
    (0 ≤ (calculateTotals [some ({ name := "Y", potency := some 2 } : Ingredient)]).potency ∧
     0 ≤ (calculateTotals [some ({ name := "Y", potency := some 2 } : Ingredient)]).resonance ∧
     0 ≤ (calculateTotals [some ({ name := "Y", potency := some 2 } : Ingredient)]).entropy) := by
  refine ⟨by decide, calculateTotals_correct.2.1 _ (by decide)⟩


/-- C6: with an empty catalog, `selectRecipe` returns recipe `null`,
roll 0, idealIndex 0 and usedFallback false, for every attribute, totals,
mode and random draw. -/
theorem selectRecipe_empty_catalog (randRoll : Nat) (attrName : String)
    (totals : AttributeTotals) (mode : String) :
    (selectRecipe randRoll [] attrName totals mode).recipe = none ∧
    (selectRecipe randRoll [] attrName totals mode).roll = 0 ∧
    (selectRecipe randRoll [] attrName totals mode).idealIndex = 0 ∧
    (selectRecipe randRoll [] attrName totals mode).usedFallback = false :=
  ⟨rfl, rfl, rfl, rfl⟩

/-- Counterexample to C7: on an empty catalog with an unrecognized
attribute, the `tierIndex` field is the raw `indexOf` result `-1`, not the
claimed `0` (the `Math.max(0, ...)` guard is only applied on the non-empty
path). -/
theorem selectRecipe_tierIndex_counterexample :
    (selectRecipe 0 [] "sulfur" ⟨0, 0, 0⟩ "deterministic").tierIndex ≠ 0 := by
  decide

/-- C7 (amended): `tierIndex` is the position of the attribute in the
canonical order `[potency, resonance, entropy]` when the attribute is
recognized; for an unrecognized attribute it is `0` on a non-empty catalog
but `-1` on an empty catalog. -/
theorem selectRecipe_tierIndex_amended (randRoll : Nat) (recipes : List Recipe)
    (attrName : String) (totals : AttributeTotals) (mode : String) :
    (selectRecipe randRoll recipes attrName totals mode).tierIndex =
      if attrName = "potency" then 0
      else if attrName = "resonance" then 1
      else if attrName = "entropy" then 2
      else if recipes.isEmpty then -1 else 0 := by
  rcases recipes with _ | ⟨x, xs⟩
  · rfl
  · simp only [selectRecipe, getTierIndex, List.length_cons, List.isEmpty_cons]
    split_ifs <;> simp

/-- C3: in `deterministic` mode, on a non-empty catalog the returned roll
is the dominant attribute's total clamped into `[1, 15]` minus 1; in
particular a total of 0 gives roll 0 and a total of 20 gives roll 14. -/
theorem selectRecipe_roll_deterministic (randRoll : Nat) (recipes : List Recipe)
    (attrName : String) (totals : AttributeTotals) (h : recipes ≠ []) :
    (selectRecipe randRoll recipes attrName totals "deterministic").roll
      = min 15 (max 1 (totalsLookup totals attrName)) - 1 ∧
    (totalsLookup totals attrName = 0 →
      (selectRecipe randRoll recipes attrName totals "deterministic").roll = 0) ∧
    (totalsLookup totals attrName = 20 →
      (selectRecipe randRoll recipes attrName totals "deterministic").roll = 14) := by
  rcases recipes with _ | ⟨x, xs⟩
  · exact absurd rfl h
  · have hmain : (selectRecipe randRoll (x :: xs) attrName totals "deterministic").roll
        = min 15 (max 1 (totalsLookup totals attrName)) - 1 := by
      simp [selectRecipe, rollExpr, deterministicRoll]
    refine ⟨hmain, fun h0 => ?_, fun h20 => ?_⟩
    · rw [hmain, h0]; norm_num
    · rw [hmain, h20]; norm_num

/-- Witness for C3: a one-recipe catalog with all-zero totals; the clamped
roll is 0. -/
theorem selectRecipe_roll_deterministic_witness :
    ([({ name := "r", qualityCategory := some "Potency" } : Recipe)] ≠ ([] : List Recipe)) ∧
    ((selectRecipe 0 [{ name := "r", qualityCategory := some "Potency" }] "potency"
        ⟨0, 0, 0⟩ "deterministic").roll
      = min 15 (max 1 (totalsLookup ⟨0, 0, 0⟩ "potency")) - 1 ∧
    (totalsLookup ⟨0, 0, 0⟩ "potency" = 0 →
      (selectRecipe 0 [{ name := "r", qualityCategory := some "Potency" }] "potency"
        ⟨0, 0, 0⟩ "deterministic").roll = 0) ∧
    (totalsLookup ⟨0, 0, 0⟩ "potency" = 20 →
      (selectRecipe 0 [{ name := "r", qualityCategory := some "Potency" }] "potency"
        ⟨0, 0, 0⟩ "deterministic").roll = 14)) :=
  ⟨by decide, selectRecipe_roll_deterministic 0 _ "potency" ⟨0, 0, 0⟩ (by decide)⟩


lemma deterministicRoll_nonneg (a : String) (t : AttributeTotals) :
    0 ≤ deterministicRoll a t := by
  simp only [deterministicRoll]
  have h1 : (1 : Int) ≤ min 15 (max 1 (totalsLookup t a)) :=
    le_min (by norm_num) (le_max_left _ _)
  omega

lemma rollExpr_nonneg (randRoll : Nat) (mode : String) (attrName : String)
    (totals : AttributeTotals) : 0 ≤ rollExpr randRoll mode attrName totals := by
  simp only [rollExpr]
  split_ifs
  · exact Int.natCast_nonneg _
  · exact deterministicRoll_nonneg _ _

lemma jsIndex_emod_isSome {α : Type} (l : List α) (i : Int)
    (hl : l ≠ []) : ∃ x, jsIndex l (i % (l.length : Int)) = some x := by
  have hlen : 0 < (l.length : Int) := by
    have := List.length_pos.mpr hl
    exact_mod_cast this
  have hmod0 : 0 ≤ i % (l.length : Int) := Int.emod_nonneg i (by omega)
  have hmodlt : i % (l.length : Int) < (l.length : Int) := Int.emod_lt_of_pos i hlen
  have hnat : (i % (l.length : Int)).toNat < l.length := by omega
  refine ⟨l.get ⟨(i % (l.length : Int)).toNat, hnat⟩, ?_⟩
  simp only [jsIndex]
  rw [if_neg (by omega)]
  exact List.getElem?_eq_getElem hnat


/-- C4: when the quality-matched subgroup (case-insensitive match of
`qualityCategory` against the attribute) is non-empty, `selectRecipe`
returns the subgroup entry at index `roll mod subgroup length`, and
`usedFallback` is true exactly when the subgroup has fewer than 15
entries. -/
theorem selectRecipe_quality_subgroup (randRoll : Nat) (recipes : List Recipe) (attrName : String)
    (totals : AttributeTotals) (mode : String) (h : recipes ≠ [])
    (hsub : recipes.filter (fun item => qcMatches item (jsToLower attrName)) ≠ []) :
    (selectRecipe randRoll recipes attrName totals mode).recipe
      = jsIndex (recipes.filter (fun item => qcMatches item (jsToLower attrName)))
          (rollExpr randRoll mode attrName totals
            % ((recipes.filter (fun item => qcMatches item (jsToLower attrName))).length : Int)) ∧
    ((selectRecipe randRoll recipes attrName totals mode).usedFallback = true ↔
      (recipes.filter (fun item => qcMatches item (jsToLower attrName))).length < 15) := by
  simp only [selectRecipe]
  rw [if_neg (by simpa using h)]
  have hsub' : (recipes.filter (fun item => qcMatches item (jsToLower attrName))).length ≠ 0 :=
    fun h0 => hsub (List.length_eq_zero.mp h0)
  rw [if_pos hsub']
  obtain ⟨y, hy⟩ := jsIndex_emod_isSome
    (recipes.filter (fun item => qcMatches item (jsToLower attrName)))
    (rollExpr randRoll mode attrName totals) hsub
  simp [hy, decide_eq_true_iff]

/-- Witness for C4: a catalog of exactly 5 recipes tagged `"Potency"` with
dominant attribute `potency`; the subgroup is the whole catalog, selection
is by `roll mod 5`, and `usedFallback` is true. -/
theorem selectRecipe_quality_subgroup_witness :
    (([{ name := "r1", qualityCategory := some "Potency" }, { name := "r2", qualityCategory := some "Potency" }, { name := "r3", qualityCategory := some "Potency" }, { name := "r4", qualityCategory := some "Potency" }, { name := "r5", qualityCategory := some "Potency" }] : List Recipe) ≠ []) ∧
    (([{ name := "r1", qualityCategory := some "Potency" }, { name := "r2", qualityCategory := some "Potency" }, { name := "r3", qualityCategory := some "Potency" }, { name := "r4", qualityCategory := some "Potency" }, { name := "r5", qualityCategory := some "Potency" }] : List Recipe).filter (fun item => qcMatches item (jsToLower "potency")) ≠ []) ∧
    ((selectRecipe 0 [{ name := "r1", qualityCategory := some "Potency" }, { name := "r2", qualityCategory := some "Potency" }, { name := "r3", qualityCategory := some "Potency" }, { name := "r4", qualityCategory := some "Potency" }, { name := "r5", qualityCategory := some "Potency" }] "potency" ⟨7, 0, 0⟩ "deterministic").recipe
      = jsIndex (([{ name := "r1", qualityCategory := some "Potency" }, { name := "r2", qualityCategory := some "Potency" }, { name := "r3", qualityCategory := some "Potency" }, { name := "r4", qualityCategory := some "Potency" }, { name := "r5", qualityCategory := some "Potency" }] : List Recipe).filter (fun item => qcMatches item (jsToLower "potency")))
          (rollExpr 0 "deterministic" "potency" ⟨7, 0, 0⟩
            % ((([{ name := "r1", qualityCategory := some "Potency" }, { name := "r2", qualityCategory := some "Potency" }, { name := "r3", qualityCategory := some "Potency" }, { name := "r4", qualityCategory := some "Potency" }, { name := "r5", qualityCategory := some "Potency" }] : List Recipe).filter (fun item => qcMatches item (jsToLower "potency"))).length : Int)) ∧
    ((selectRecipe 0 [{ name := "r1", qualityCategory := some "Potency" }, { name := "r2", qualityCategory := some "Potency" }, { name := "r3", qualityCategory := some "Potency" }, { name := "r4", qualityCategory := some "Potency" }, { name := "r5", qualityCategory := some "Potency" }] "potency" ⟨7, 0, 0⟩ "deterministic").usedFallback = true ↔
      (([{ name := "r1", qualityCategory := some "Potency" }, { name := "r2", qualityCategory := some "Potency" }, { name := "r3", qualityCategory := some "Potency" }, { name := "r4", qualityCategory := some "Potency" }, { name := "r5", qualityCategory := some "Potency" }] : List Recipe).filter (fun item => qcMatches item (jsToLower "potency"))).length < 15)) :=
  ⟨by decide, by decide,
    selectRecipe_quality_subgroup 0 [{ name := "r1", qualityCategory := some "Potency" }, { name := "r2", qualityCategory := some "Potency" }, { name := "r3", qualityCategory := some "Potency" }, { name := "r4", qualityCategory := some "Potency" }, { name := "r5", qualityCategory := some "Potency" }] "potency" ⟨7, 0, 0⟩ "deterministic"
      (by decide) (by decide)⟩


lemma selectRecipe_recipe_isSome (randRoll : Nat) (recipes : List Recipe)
    (attrName : String) (totals : AttributeTotals) (mode : String)
    (h : recipes ≠ []) :
    ((selectRecipe randRoll recipes attrName totals mode).recipe).isSome := by
  simp only [selectRecipe]
  rw [if_neg (by simpa using h)]
  by_cases hsub : (recipes.filter (fun item => qcMatches item (jsToLower attrName))).length ≠ 0
  · rw [if_pos hsub]
    obtain ⟨y, hy⟩ := jsIndex_emod_isSome
      (recipes.filter (fun item => qcMatches item (jsToLower attrName)))
      (rollExpr randRoll mode attrName totals)
      (fun h0 => hsub (by simp [h0]))
    simp [hy]
  · rw [if_neg hsub]
    cases hfi : jsIndex recipes
        ((max 0 (getTierIndex attrName)) * 15 + rollExpr randRoll mode attrName totals) with
    | some y => simp [hfi]
    | none =>
      simp only [hfi]
      by_cases hqm : (recipes.filter (fun item => qcMatches item attrName)).length ≠ 0
      · rw [if_pos hqm]
        obtain ⟨z, hz⟩ := jsIndex_emod_isSome
          (recipes.filter (fun item => qcMatches item attrName))
          (rollExpr randRoll mode attrName totals)
          (fun h0 => hqm (by simp [h0]))
        simp [hz]
      · rw [if_neg hqm]
        obtain ⟨w, hw⟩ := jsIndex_emod_isSome recipes
          (rollExpr randRoll mode attrName totals) h
        simp [hw]

/-- C5: `selectRecipe` returns recipe `null` exactly when the catalog is
empty; on any non-empty catalog the layered fallback produces a recipe.
The selector is a total Lean function, so it never throws. -/
theorem selectRecipe_null_iff_empty (randRoll : Nat) (recipes : List Recipe)
    (attrName : String) (totals : AttributeTotals) (mode : String) :
    (selectRecipe randRoll recipes attrName totals mode).recipe = none ↔
      recipes = [] := by
  constructor
  · intro hnone
    by_contra hne
    have hs := selectRecipe_recipe_isSome randRoll recipes attrName totals mode hne
    rw [hnone] at hs
    simp at hs
  · rintro rfl
    rfl


/-- C10: for the three canonical lowercase attribute tokens (the only
values `resolveDominantAttribute` produces), the secondary fallback's
quality re-filter (lower-cased category compared with the raw token)
selects exactly the recipes of the primary filter (lower-cased category
compared with the lower-cased attribute); hence when the primary subgroup
is empty and the whole-catalog index misses, the re-filter is empty too
and selection falls through to `recipes[roll mod recipes.length]` with
`usedFallback = true`. -/
theorem selectRecipe_refilter_equivalent (randRoll : Nat) (recipes : List Recipe)
    (attrName : String) (totals : AttributeTotals) (mode : String)
    (hattr : attrName = "potency" ∨ attrName = "resonance" ∨ attrName = "entropy") :
    recipes.filter (fun item => qcMatches item (jsToLower attrName))
      = recipes.filter (fun item => qcMatches item attrName) ∧
    (recipes ≠ [] →
      recipes.filter (fun item => qcMatches item (jsToLower attrName)) = [] →
      jsIndex recipes
          ((max 0 (getTierIndex attrName)) * 15
            + rollExpr randRoll mode attrName totals) = none →
      recipes.filter (fun item => qcMatches item attrName) = [] ∧
      (selectRecipe randRoll recipes attrName totals mode).recipe
        = jsIndex recipes
            (rollExpr randRoll mode attrName totals % (recipes.length : Int)) ∧
      (selectRecipe randRoll recipes attrName totals mode).usedFallback = true) := by
  have hlow : jsToLower attrName = attrName := by
    rcases hattr with rfl | rfl | rfl <;> rfl
  rw [hlow]
  refine ⟨rfl, fun hne hfilter hideal => ⟨hfilter, ?_⟩⟩
  simp only [selectRecipe]
  rw [if_neg (by simpa using hne)]
  rw [hlow, if_neg (by simp [hfilter])]
  simp only [hideal]
  rw [if_neg (by simp [hfilter])]
  exact ⟨rfl, rfl⟩


/-- Witness for C10: a one-recipe catalog tagged `"iron"` with attribute
`potency` and a roll of 1; the primary subgroup is empty, the whole-catalog
index 1 is out of range, and the last-resort pick fires. -/
theorem selectRecipe_refilter_equivalent_witness :
    ("potency" = "potency" ∨ "potency" = "resonance" ∨ "potency" = "entropy") ∧
    (([({ name := "x", qualityCategory := some "iron" } : Recipe)] : List Recipe) ≠ []) ∧
    ([({ name := "x", qualityCategory := some "iron" } : Recipe)].filter
        (fun item => qcMatches item (jsToLower "potency")) = []) ∧
    (jsIndex [({ name := "x", qualityCategory := some "iron" } : Recipe)]
        ((max 0 (getTierIndex "potency")) * 15
          + rollExpr 0 "deterministic" "potency" ⟨2, 0, 0⟩) = none) ∧
    ((selectRecipe 0 [({ name := "x", qualityCategory := some "iron" } : Recipe)]
        "potency" ⟨2, 0, 0⟩ "deterministic").recipe
      = jsIndex [({ name := "x", qualityCategory := some "iron" } : Recipe)]
          (rollExpr 0 "deterministic" "potency" ⟨2, 0, 0⟩
            % (([({ name := "x", qualityCategory := some "iron" } : Recipe)] : List Recipe).length : Int)) ∧
    (selectRecipe 0 [({ name := "x", qualityCategory := some "iron" } : Recipe)]
        "potency" ⟨2, 0, 0⟩ "deterministic").usedFallback = true) :=
  ⟨Or.inl rfl, by decide, by decide, by decide,
    ((selectRecipe_refilter_equivalent 0
        [({ name := "x", qualityCategory := some "iron" } : Recipe)]
        "potency" ⟨2, 0, 0⟩ "deterministic" (Or.inl rfl)).2
      (by decide) (by decide) (by decide)).2⟩

/-- C1: with `mode:"deterministic"` (or mode unset, which defaults to
deterministic), `calculateResult` is independent of the random oracle, so
two invocations with identical ingredients, discipline, catalog and
options return identical `CraftingResult` records. -/
theorem calculateResult_deterministic_reproducible (r1 r2 : Nat)
    (ingredients : List (Option Ingredient)) (discipline : String)
    (recipes : List Recipe) (options : Options)
    (h : options.mode = some "deterministic" ∨ options.mode = none) :
    calculateResult r1 ingredients discipline recipes options
      = calculateResult r2 ingredients discipline recipes options := by
  have hmode : resolveMode options = "deterministic" := by
    rcases h with h | h <;> simp [resolveMode, h]
  have hroll : ∀ a t, rollExpr r1 "deterministic" a t = rollExpr r2 "deterministic" a t := by
    intro a t
    simp [rollExpr]
  have hsel : ∀ a t, selectRecipe r1 recipes a t (resolveMode options)
      = selectRecipe r2 recipes a t (resolveMode options) := by
    intro a t
    rw [hmode]
    simp only [selectRecipe, hroll]
  simp only [calculateResult, hsel]

/-- Witness for C1: two different oracle values give the same result on a
concrete deterministic call. -/
theorem calculateResult_deterministic_reproducible_witness :
    ((⟨some "deterministic"⟩ : Options).mode = some "deterministic" ∨
      (⟨some "deterministic"⟩ : Options).mode = none) ∧
    calculateResult 3 [some { name := "herb", potency := some 2 }] "Herbalism"
        [{ name := "r1", qualityCategory := some "resonance" }] ⟨some "deterministic"⟩
      = calculateResult 11 [some { name := "herb", potency := some 2 }] "Herbalism"
          [{ name := "r1", qualityCategory := some "resonance" }] ⟨some "deterministic"⟩ :=
  ⟨Or.inl rfl,
    calculateResult_deterministic_reproducible 3 11 _ _ _ _ (Or.inl rfl)⟩

end Crafting
